import Mathlib

/-!
Verification of the KBFS search-indexing subsystem (`go/kbfs/search`).

The repository ships the test driver (`indexer_test.go`); the indexer body
itself is a collaborator described by the specification.  The definitions
below are therefore a shallow embedding modelled from the specification's
description of the Document ID Allocator, the Reference Tracker, and the
Indexer operations (indexChild, updateChild, renameChild, deleteFromUnrefs),
together with the search behaviour the test exercises through the external
search engine (lower-cased token matching over the `name` and `content`
fields, with markup stripped from recognized markup content).
-/

namespace KbfsSearch

/-- Modelled from the spec: the external search engine lower-cases tokens, so
a word is compared case-insensitively.  A query word is normalised by
lower-casing every character. -/
def lowerWord (w : List Char) : List Char := w.map Char.toLower

/-- Tokenizer helper: split a character stream into maximal alphanumeric runs.
`cur` holds the current (reversed) run. -/
def rawTokensAux : List Char → List Char → List (List Char)
  | [], cur => if cur.isEmpty then [] else [cur.reverse]
  | c :: rest, cur =>
    if c.isAlphanum then rawTokensAux rest (c :: cur)
    else if cur.isEmpty then rawTokensAux rest []
    else cur.reverse :: rawTokensAux rest []

/-- Modelled from the spec: the external search engine's analyzer splits text
into word tokens (maximal alphanumeric runs), before case folding. -/
def rawTokens (s : List Char) : List (List Char) := rawTokensAux s []

/-- Modelled from the spec: the tokens actually indexed are the word tokens,
lower-cased. -/
def tokens (s : List Char) : List (List Char) := (rawTokens s).map lowerWord

/-- Markup stripping helper; the boolean records being inside a `<...>` tag. -/
def stripTagsAux : List Char → Bool → List Char
  | [], _ => []
  | c :: r, true => if c = '>' then stripTagsAux r false else stripTagsAux r true
  | c :: r, false => if c = '<' then stripTagsAux r true else c :: stripTagsAux r false

/-- Modelled from the spec: recognized markup content is parsed and only
human-visible text is kept; everything between `<` and `>` (element names,
attribute names and attribute values) is dropped. -/
def stripTags (s : List Char) : List Char := stripTagsAux s false

/-- Modelled from the spec: content extraction is dispatched by a closed set
of content-type variants. -/
inductive ContentType where
  | plain : ContentType
  | html : ContentType
deriving DecidableEq

/-- Modelled from the spec: the content type is recognized from the entry's
name (the test drives the markup path with a `.html` file). -/
def contentTypeOf (name : List Char) : ContentType :=
  if (".html".data).isSuffixOf name then .html else .plain

/-- Modelled from the spec: recognized markup content is parsed and only
human-visible text is indexed; everything else is indexed as raw text. -/
def extract (name content : List Char) : List Char :=
  match contentTypeOf name with
  | .html => stripTags content
  | .plain => content

/-- An index document: at least the two fields `name` (path component) and
`content` (extracted text). -/
structure Doc where
  name : List Char
  content : List Char
deriving DecidableEq

/-- Association-list lookup (first matching key). -/
def alookup {β : Type} : List (Nat × β) → Nat → Option β
  | [], _ => none
  | (a, b) :: r, k => if a = k then some b else alookup r k

/-- Association-list erase (all entries with the key). -/
def aerase {β : Type} : List (Nat × β) → Nat → List (Nat × β)
  | [], _ => []
  | (a, b) :: r, k => if a = k then aerase r k else (a, b) :: aerase r k

/-- Association-list upsert: overwrite in place when the key is present,
append otherwise. -/
def aupsert {β : Type} : List (Nat × β) → Nat → β → List (Nat × β)
  | [], k, v => [(k, v)]
  | (a, b) :: r, k, v => if a = k then (k, v) :: r else (a, b) :: aupsert r k v

/-- Modelled from the spec: the durable state of one index instance — the
Allocator's persisted counter, the Reference Tracker's BlockPointer →
DocumentID mapping, and the external search engine's documents keyed by
DocumentID.  BlockPointers and DocumentIDs are opaque, modelled as `Nat`. -/
structure IndexerState where
  nextDocID : Nat
  refTracker : List (Nat × Nat)
  index : List (Nat × Doc)
deriving DecidableEq

/-- A freshly initialized index instance. -/
def emptyState : IndexerState := ⟨0, [], []⟩

/-- Modelled from the spec: the Document ID Allocator reserves a batch of the
`n` next DocumentIDs atomically and durably, advancing the persisted counter
before any ID in the batch is handed to a caller. -/
def getNextDocIDs (n : Nat) (s : IndexerState) : List Nat × IndexerState :=
  ((List.range n).map (s.nextDocID + ·), { s with nextDocID := s.nextDocID + n })

/-- Modelled from the spec: indexChild.  If the entry's current BlockPointer
already has a mapping in the Reference Tracker, the existing DocumentID is
reused (the document is re-indexed under it) and the call reports `false`;
otherwise the candidate DocumentID is consumed, a document with fields
`name` and `content` (extracted text) is indexed, the reverse mapping is
registered, and the call reports `true`. -/
def indexChild (s : IndexerState) (name : String) (ptr candidateID : Nat)
    (content : String) : Bool × IndexerState :=
  match alookup s.refTracker ptr with
  | some id =>
    (false, { s with
      index := aupsert s.index id ⟨name.data, extract name.data content.data⟩ })
  | none =>
    (true, { s with
      index := aupsert s.index candidateID ⟨name.data, extract name.data content.data⟩,
      refTracker := (ptr, candidateID) :: s.refTracker })

/-- Errors surfaced by the indexer operations. -/
inductive IndexError where
  | notFound : IndexError
deriving DecidableEq

/-- Modelled from the spec: updateChild re-extracts content for the
DocumentID currently mapped from the previous BlockPointer, overwrites that
document's fields in place (same DocumentID), and atomically swaps the
reverse mapping to the new BlockPointer.  It fails with NotFoundError when
no mapping exists for the previous BlockPointer. -/
def updateChild (s : IndexerState) (name : String) (oldPtr newPtr : Nat)
    (newContent : String) : Except IndexError IndexerState :=
  match alookup s.refTracker oldPtr with
  | none => .error .notFound
  | some id => .ok { s with
      index := aupsert s.index id ⟨name.data, extract name.data newContent.data⟩,
      refTracker := (newPtr, id) :: aerase s.refTracker oldPtr }

/-- Modelled from the spec: renameChild updates only the `name` field of the
document mapped from the entry's current BlockPointer; DocumentID and
`content` are untouched. -/
def renameChild (s : IndexerState) (ptr : Nat) (newName : String) :
    Except IndexError IndexerState :=
  match alookup s.refTracker ptr with
  | none => .error .notFound
  | some id =>
    match alookup s.index id with
    | none => .error .notFound
    | some d => .ok { s with index := aupsert s.index id ⟨newName.data, d.content⟩ }

/-- Modelled from the spec: one step of deleteFromUnrefs — look up a mapped
DocumentID for the pointer; if found, delete the document from the search
index and erase the reverse mapping; otherwise silently skip. -/
def deleteOne (s : IndexerState) (ptr : Nat) : IndexerState :=
  match alookup s.refTracker ptr with
  | none => s
  | some id =>
    { s with index := aerase s.index id, refTracker := aerase s.refTracker ptr }

/-- Modelled from the spec: deleteFromUnrefs processes each unreferenced
BlockPointer in turn. -/
def deleteFromUnrefs (s : IndexerState) (ptrs : List Nat) : IndexerState :=
  ptrs.foldl deleteOne s

/-- Boolean membership of a word in a token list. -/
def memW (w : List Char) : List (List Char) → Bool
  | [] => false
  | x :: r => if x = w then true else memW w r

/-- The tokens a document is findable by: its `name` tokens and its
`content` tokens. -/
def docTokens (d : Doc) : List (List Char) := tokens d.name ++ tokens d.content

/-- Modelled from the spec: a single-word query matches a document when the
lower-cased query word occurs among the document's indexed tokens. -/
def docMatch (q : String) (d : Doc) : Bool := memW (lowerWord q.data) (docTokens d)

/-- Modelled from the spec: Search(query) returns the hits — the DocumentIDs
of the documents matching the query. -/
def searchHits (s : IndexerState) (q : String) : List Nat :=
  (s.index.filter (fun e => docMatch q e.2)).map (fun e => e.1)

/-- The number of hits of a search. -/
def searchCount (s : IndexerState) (q : String) : Nat := (searchHits s q).length

/-- Test scenario content of file `a` (`indexer_test.go`). -/
def aText : String := "Lorem ipsum dolor sit amet, consectetur adipiscing elit."

/-- Test scenario content of file `b.html` (`indexer_test.go`). -/
def bHTML : String :=
  "Mauris et <a href=neque>sit</a> amet nisi <b>condimentum</b> fringilla vel non augue"

/-- Test scenario updated content of file `a` (`indexer_test.go`). -/
def aNewText : String := "Ut feugiat dolor in tortor viverra, ac egestas justo tincidunt."

/-- Scenario: reserve a DocumentID for file `a`. -/
def scen1 : List Nat × IndexerState := getNextDocIDs 1 emptyState

/-- Scenario: index file `a` (BlockPointer 1). -/
def scen2 : IndexerState := (indexChild scen1.2 "a" 1 (scen1.1.headD 0) aText).2

/-- Scenario: reserve a DocumentID for file `b.html`. -/
def scen3 : List Nat × IndexerState := getNextDocIDs 1 scen2

/-- Scenario: index file `b.html` (BlockPointer 2). -/
def scen4 : IndexerState := (indexChild scen3.2 "b.html" 2 (scen3.1.headD 0) bHTML).2

/-- Scenario: update file `a` with its new content (BlockPointer 1 → 3). -/
def scen5 : IndexerState :=
  match updateChild scen4 "a" 1 3 aNewText with
  | .ok t => t
  | .error _ => emptyState

/-- A state with one indexed document, used to exercise the mapped branches. -/
def oneDocState : IndexerState := ⟨1, [(5, 0)], [(0, ⟨"a".data, "old stuff".data⟩)]⟩

/-- A state with two indexed documents, used to exercise deletion. -/
def twoDocState : IndexerState :=
  ⟨2, [(1, 0), (3, 1)],
   [(0, ⟨"a".data, "old stuff".data⟩), (1, ⟨"b".data, "more words".data⟩)]⟩

/-- A filesystem subtree, as seen by the full-sync backfill traversal:
directories carry a name and children, files a name and raw content. -/
inductive FsNode where
  | file (name content : String) : FsNode
  | dir (name : String) (children : List FsNode) : FsNode

mutual

/-- Modelled from the spec: the full-sync backfill traversal indexes every
entry of a synced TLF — directories as well as regular files — giving each a
fresh DocumentID from the Allocator and a fresh BlockPointer `p`. -/
def fullIndexNode (s : IndexerState) (p : Nat) : FsNode → IndexerState × Nat
  | .file name content =>
    let g := getNextDocIDs 1 s
    ((indexChild g.2 name p (g.1.headD 0) content).2, p + 1)
  | .dir name children =>
    let g := getNextDocIDs 1 s
    let s1 := (indexChild g.2 name p (g.1.headD 0) "").2
    fullIndexList s1 (p + 1) children

/-- Backfill traversal over a directory's children, left to right. -/
def fullIndexList (s : IndexerState) (p : Nat) : List FsNode → IndexerState × Nat
  | [] => (s, p)
  | c :: r =>
    let sp := fullIndexNode s p c
    fullIndexList sp.1 sp.2 r

end

/-- The tree of `TestFullIndexSyncedTlf`: two directories with two files
each; the children's names contain the directory's name. -/
def testTree : FsNode :=
  .dir "" [
    .dir "alpha" [
      .file "alpha_file1" "Lorem ipsum dolor sit amet, consectetur adipiscing elit.",
      .file "alpha_file2" "Mauris et neque sit amet nisi condimentum fringilla vel non augue"],
    .dir "beta" [
      .file "beta_file1" "Ut feugiat dolor in tortor viverra, ac egestas justo tincidunt.",
      .file "beta_file2" "Cras volutpat mi in purus interdum, sit amet luctus velit accumsan."]]

/-- The index produced by the backfill traversal of `testTree`. -/
def fullState : IndexerState := (fullIndexNode emptyState 0 testTree).1

theorem alookup_aupsert_self {β : Type} (l : List (Nat × β)) (k : Nat) (v : β) :
    alookup (aupsert l k v) k = some v := by
  induction l with
  | nil => simp [aupsert, alookup]
  | cons e r ih =>
    obtain ⟨a, b⟩ := e
    by_cases h : a = k
    · subst h; simp [aupsert, alookup]
    · simp [aupsert, alookup, h, ih]

theorem alookup_aupsert_ne {β : Type} (l : List (Nat × β)) (k : Nat) (v : β) (j : Nat)
    (h : j ≠ k) : alookup (aupsert l k v) j = alookup l j := by
  induction l with
  | nil => simp [aupsert, alookup, Ne.symm h]
  | cons e r ih =>
    obtain ⟨a, b⟩ := e
    by_cases ha : a = k
    · subst ha; simp [aupsert, alookup, Ne.symm h]
    · simp [aupsert, alookup, ha, ih]

theorem alookup_aerase_self {β : Type} (l : List (Nat × β)) (k : Nat) :
    alookup (aerase l k) k = none := by
  induction l with
  | nil => simp [aerase, alookup]
  | cons e r ih =>
    obtain ⟨a, b⟩ := e
    by_cases h : a = k
    · subst h; simp [aerase, ih]
    · simp [aerase, alookup, h, ih]

theorem alookup_aerase_ne {β : Type} (l : List (Nat × β)) (k j : Nat)
    (h : j ≠ k) : alookup (aerase l k) j = alookup l j := by
  induction l with
  | nil => simp [aerase]
  | cons e r ih =>
    obtain ⟨a, b⟩ := e
    by_cases ha : a = k
    · subst ha; simp [aerase, alookup, Ne.symm h, ih]
    · simp [aerase, alookup, ha, ih]

theorem alookup_aerase_none {β : Type} (l : List (Nat × β)) (k j : Nat)
    (h : alookup l j = none) : alookup (aerase l k) j = none := by
  by_cases hjk : j = k
  · subst hjk; exact alookup_aerase_self l j
  · rw [alookup_aerase_ne l k j hjk]; exact h

theorem memW_iff (w : List Char) (l : List (List Char)) : memW w l = true ↔ w ∈ l := by
  induction l with
  | nil => simp [memW]
  | cons x r ih =>
    by_cases h : x = w
    · subst h; simp [memW]
    · simp [memW, h, ih, Ne.symm h]

theorem alookup_none_keys {β : Type} (l : List (Nat × β)) (i : Nat)
    (h : alookup l i = none) : ∀ e ∈ l, e.1 ≠ i := by
  induction l with
  | nil => intro e he; cases he
  | cons x r ih =>
    obtain ⟨a, b⟩ := x
    by_cases ha : a = i
    · simp [alookup, ha] at h
    · intro e he hei
      rcases List.mem_cons.mp he with rfl | he'
      · exact ha hei
      · have h' : alookup r i = none := by simpa [alookup, ha] using h
        exact ih h' e he' hei

theorem not_mem_hits_of_alookup_none (s : IndexerState) (i : Nat) (q : String)
    (h : alookup s.index i = none) : i ∉ searchHits s q := by
  intro hmem
  simp only [searchHits, List.mem_map] at hmem
  obtain ⟨e, he, hei⟩ := hmem
  exact alookup_none_keys s.index i h e (List.mem_of_mem_filter he) hei

theorem deleteOne_nextDocID (s : IndexerState) (p : Nat) :
    (deleteOne s p).nextDocID = s.nextDocID := by
  unfold deleteOne
  cases alookup s.refTracker p <;> rfl

theorem deleteFromUnrefs_nextDocID (l : List Nat) :
    ∀ s : IndexerState, (deleteFromUnrefs s l).nextDocID = s.nextDocID := by
  induction l with
  | nil => intro s; rfl
  | cons q r ih =>
    intro s
    show (deleteFromUnrefs (deleteOne s q) r).nextDocID = s.nextDocID
    rw [ih, deleteOne_nextDocID]

theorem deleteOne_ref_none (s : IndexerState) (q p : Nat)
    (h : alookup s.refTracker p = none) :
    alookup (deleteOne s q).refTracker p = none := by
  unfold deleteOne
  cases hq : alookup s.refTracker q with
  | none => exact h
  | some id => exact alookup_aerase_none _ _ _ h

theorem deleteOne_self_ref (s : IndexerState) (p : Nat) :
    alookup (deleteOne s p).refTracker p = none := by
  unfold deleteOne
  cases hp : alookup s.refTracker p with
  | none => exact hp
  | some id => exact alookup_aerase_self _ _

theorem deleteOne_ref_ne (s : IndexerState) (q p : Nat) (h : p ≠ q) :
    alookup (deleteOne s q).refTracker p = alookup s.refTracker p := by
  unfold deleteOne
  cases hq : alookup s.refTracker q with
  | none => rfl
  | some id => exact alookup_aerase_ne _ _ _ h

theorem deleteOne_index_none (s : IndexerState) (q : Nat) (i : Nat)
    (h : alookup s.index i = none) :
    alookup (deleteOne s q).index i = none := by
  unfold deleteOne
  cases hq : alookup s.refTracker q with
  | none => exact h
  | some id => exact alookup_aerase_none _ _ _ h

theorem del_ref_none (l : List Nat) :
    ∀ (s : IndexerState) (p : Nat), alookup s.refTracker p = none →
      alookup (deleteFromUnrefs s l).refTracker p = none := by
  induction l with
  | nil => intro s p h; exact h
  | cons q r ih =>
    intro s p h
    show alookup (deleteFromUnrefs (deleteOne s q) r).refTracker p = none
    exact ih _ _ (deleteOne_ref_none s q p h)

theorem del_index_none (l : List Nat) :
    ∀ (s : IndexerState) (i : Nat), alookup s.index i = none →
      alookup (deleteFromUnrefs s l).index i = none := by
  induction l with
  | nil => intro s i h; exact h
  | cons q r ih =>
    intro s i h
    show alookup (deleteFromUnrefs (deleteOne s q) r).index i = none
    exact ih _ _ (deleteOne_index_none s q i h)

theorem del_mem_ref_none (l : List Nat) :
    ∀ (s : IndexerState) (p : Nat), p ∈ l →
      alookup (deleteFromUnrefs s l).refTracker p = none := by
  induction l with
  | nil => intro s p hp; cases hp
  | cons q r ih =>
    intro s p hp
    by_cases hpq : p = q
    · subst hpq
      show alookup (deleteFromUnrefs (deleteOne s p) r).refTracker p = none
      exact del_ref_none r _ _ (deleteOne_self_ref s p)
    · have hp' : p ∈ r := (List.mem_cons.mp hp).resolve_left hpq
      exact ih (deleteOne s q) p hp'

theorem del_deletes (l : List Nat) :
    ∀ (s : IndexerState) (p id : Nat), p ∈ l → alookup s.refTracker p = some id →
      alookup (deleteFromUnrefs s l).index id = none := by
  induction l with
  | nil => intro s p id hp; cases hp
  | cons q r ih =>
    intro s p id hp hm
    by_cases hpq : p = q
    · subst hpq
      show alookup (deleteFromUnrefs (deleteOne s p) r).index id = none
      apply del_index_none
      have hidx : (deleteOne s p).index = aerase s.index id := by
        unfold deleteOne; rw [hm]
      rw [hidx]
      exact alookup_aerase_self _ _
    · have hp' : p ∈ r := (List.mem_cons.mp hp).resolve_left hpq
      apply ih (deleteOne s q) p id hp'
      rw [deleteOne_ref_ne s q p hpq]
      exact hm

theorem del_noop (l : List Nat) :
    ∀ s : IndexerState, (∀ p ∈ l, alookup s.refTracker p = none) →
      deleteFromUnrefs s l = s := by
  induction l with
  | nil => intro s _; rfl
  | cons q r ih =>
    intro s h
    have hq : alookup s.refTracker q = none := h q (List.mem_cons_self q r)
    have hone : deleteOne s q = s := by unfold deleteOne; rw [hq]
    show deleteFromUnrefs (deleteOne s q) r = s
    rw [hone]
    exact ih s (fun p hp => h p (List.mem_cons_of_mem q hp))

/-- C1: indexChild — when the entry's current BlockPointer already has a
mapping in the Reference Tracker, the existing DocumentID is reused (the
document is indexed under it, the tracker is unchanged) and the call returns
false; otherwise the candidate DocumentID is consumed, a new document with
fields `name` (path component) and `content` (extracted text) is indexed,
the reverse mapping BlockPointer → DocumentID is registered, and the call
returns true. -/
theorem indexChild_spec (s : IndexerState) (name : String) (ptr cand : Nat)
    (content : String) :
    (∀ id, alookup s.refTracker ptr = some id →
      (indexChild s name ptr cand content).1 = false ∧
      alookup (indexChild s name ptr cand content).2.index id =
        some ⟨name.data, extract name.data content.data⟩ ∧
      (indexChild s name ptr cand content).2.refTracker = s.refTracker) ∧
    (alookup s.refTracker ptr = none →
      (indexChild s name ptr cand content).1 = true ∧
      alookup (indexChild s name ptr cand content).2.index cand =
        some ⟨name.data, extract name.data content.data⟩ ∧
      alookup (indexChild s name ptr cand content).2.refTracker ptr = some cand) := by
  constructor
  · intro id h
    have e : indexChild s name ptr cand content = (false, { s with
        index := aupsert s.index id ⟨name.data, extract name.data content.data⟩ }) := by
      unfold indexChild; rw [h]
    rw [e]
    exact ⟨rfl, alookup_aupsert_self _ _ _, rfl⟩
  · intro h
    have e : indexChild s name ptr cand content = (true, { s with
        index := aupsert s.index cand ⟨name.data, extract name.data content.data⟩,
        refTracker := (ptr, cand) :: s.refTracker }) := by
      unfold indexChild; rw [h]
    rw [e]
    refine ⟨rfl, alookup_aupsert_self _ _ _, ?_⟩
    simp [alookup]

/-- Witness for C1: a re-run on an already-mapped pointer reuses DocumentID 0
and reports false; a fresh pointer consumes candidate 9 and reports true. -/
theorem indexChild_spec_witness :
    ((indexChild oneDocState "a" 5 9 "fresh words").1 = false ∧
      alookup (indexChild oneDocState "a" 5 9 "fresh words").2.index 0 =
        some ⟨"a".data, extract "a".data "fresh words".data⟩ ∧
      (indexChild oneDocState "a" 5 9 "fresh words").2.refTracker =
        oneDocState.refTracker) ∧
    ((indexChild emptyState "a" 5 9 "fresh words").1 = true ∧
      alookup (indexChild emptyState "a" 5 9 "fresh words").2.index 9 =
        some ⟨"a".data, extract "a".data "fresh words".data⟩ ∧
      alookup (indexChild emptyState "a" 5 9 "fresh words").2.refTracker 5 = some 9) :=
  ⟨(indexChild_spec oneDocState "a" 5 9 "fresh words").1 0 rfl,
   (indexChild_spec emptyState "a" 5 9 "fresh words").2 rfl⟩

/-- C3: updateChild on a mapped previous BlockPointer keeps the same
DocumentID, overwrites the document's fields in place, swaps the reverse
mapping to the new BlockPointer, and afterwards a word absent from the new
fields no longer matches that document while a word of the new content
matches it. -/
theorem updateChild_spec (s : IndexerState) (name : String) (oldPtr newPtr : Nat)
    (newContent : String) (id : Nat)
    (hmap : alookup s.refTracker oldPtr = some id) (hne : oldPtr ≠ newPtr) :
    ∃ s', updateChild s name oldPtr newPtr newContent = .ok s' ∧
      alookup s'.refTracker newPtr = some id ∧
      alookup s'.refTracker oldPtr = none ∧
      alookup s'.index id = some ⟨name.data, extract name.data newContent.data⟩ ∧
      (∀ q : String, lowerWord q.data ∉ tokens name.data →
        lowerWord q.data ∉ tokens (extract name.data newContent.data) →
        docMatch q ⟨name.data, extract name.data newContent.data⟩ = false) ∧
      (∀ q : String, lowerWord q.data ∈ tokens (extract name.data newContent.data) →
        docMatch q ⟨name.data, extract name.data newContent.data⟩ = true) := by
  refine ⟨{ s with
      index := aupsert s.index id ⟨name.data, extract name.data newContent.data⟩,
      refTracker := (newPtr, id) :: aerase s.refTracker oldPtr },
    by unfold updateChild; rw [hmap], ?_, ?_, ?_, ?_, ?_⟩
  · simp [alookup]
  · have h1 : alookup (aerase s.refTracker oldPtr) oldPtr = none :=
      alookup_aerase_self _ _
    simp [alookup, Ne.symm hne, h1]
  · exact alookup_aupsert_self _ _ _
  · intro q hn hc
    show memW (lowerWord q.data)
      (docTokens ⟨name.data, extract name.data newContent.data⟩) = false
    rw [← Bool.not_eq_true, memW_iff]
    intro hmem
    rcases List.mem_append.mp hmem with h1 | h2
    · exact hn h1
    · exact hc h2
  · intro q hc
    show memW (lowerWord q.data)
      (docTokens ⟨name.data, extract name.data newContent.data⟩) = true
    rw [memW_iff]
    exact List.mem_append.mpr (Or.inr hc)

/-- Witness for C3: updating the document behind BlockPointer 5 to pointer 8
keeps DocumentID 0, swaps the mapping, drops the old word and gains the new. -/
theorem updateChild_spec_witness :
    ∃ s', updateChild oneDocState "a" 5 8 "tortor prose" = .ok s' ∧
      alookup s'.refTracker 8 = some 0 ∧
      alookup s'.refTracker 5 = none ∧
      alookup s'.index 0 = some ⟨"a".data, extract "a".data "tortor prose".data⟩ ∧
      (∀ q : String, lowerWord q.data ∉ tokens "a".data →
        lowerWord q.data ∉ tokens (extract "a".data "tortor prose".data) →
        docMatch q ⟨"a".data, extract "a".data "tortor prose".data⟩ = false) ∧
      (∀ q : String, lowerWord q.data ∈ tokens (extract "a".data "tortor prose".data) →
        docMatch q ⟨"a".data, extract "a".data "tortor prose".data⟩ = true) :=
  updateChild_spec oneDocState "a" 5 8 "tortor prose" 0 rfl (by decide)

/-- C5: renameChild changes only the `name` field of the document mapped
from the entry's current BlockPointer: the DocumentID and the `content`
field are unchanged, other documents and the Reference Tracker are
untouched, every content word still matches the renamed document, a word
only in the old name no longer matches it, and a word of the new name now
matches it. -/
theorem renameChild_spec (s : IndexerState) (ptr id : Nat) (d : Doc)
    (newName : String)
    (h1 : alookup s.refTracker ptr = some id)
    (h2 : alookup s.index id = some d) :
    ∃ s', renameChild s ptr newName = .ok s' ∧
      alookup s'.index id = some ⟨newName.data, d.content⟩ ∧
      (∀ j, j ≠ id → alookup s'.index j = alookup s.index j) ∧
      s'.refTracker = s.refTracker ∧
      s'.nextDocID = s.nextDocID ∧
      (∀ q : String, lowerWord q.data ∈ tokens d.content →
        docMatch q ⟨newName.data, d.content⟩ = true) ∧
      (∀ q : String, lowerWord q.data ∈ tokens d.name →
        lowerWord q.data ∉ tokens newName.data →
        lowerWord q.data ∉ tokens d.content →
        docMatch q d = true ∧ docMatch q ⟨newName.data, d.content⟩ = false) ∧
      (∀ q : String, lowerWord q.data ∈ tokens newName.data →
        docMatch q ⟨newName.data, d.content⟩ = true) := by
  refine ⟨{ s with index := aupsert s.index id ⟨newName.data, d.content⟩ },
    by simp only [renameChild, h1, h2], ?_, ?_, rfl, rfl, ?_, ?_, ?_⟩
  · exact alookup_aupsert_self _ _ _
  · intro j hj
    exact alookup_aupsert_ne _ _ _ _ hj
  · intro q hc
    show memW (lowerWord q.data) (docTokens ⟨newName.data, d.content⟩) = true
    rw [memW_iff]
    exact List.mem_append.mpr (Or.inr hc)
  · intro q hold hnew hc
    constructor
    · show memW (lowerWord q.data) (docTokens d) = true
      rw [memW_iff]
      exact List.mem_append.mpr (Or.inl hold)
    · show memW (lowerWord q.data) (docTokens ⟨newName.data, d.content⟩) = false
      rw [← Bool.not_eq_true, memW_iff]
      intro hmem
      rcases List.mem_append.mp hmem with ha | hb
      · exact hnew ha
      · exact hc hb
  · intro q hn
    show memW (lowerWord q.data) (docTokens ⟨newName.data, d.content⟩) = true
    rw [memW_iff]
    exact List.mem_append.mpr (Or.inl hn)

/-- Witness for C5: renaming the document behind BlockPointer 5 from `a` to
`neque.txt` keeps DocumentID 0 and its content, and flips only the name. -/
theorem renameChild_spec_witness :
    ∃ s', renameChild oneDocState 5 "neque.txt" = .ok s' ∧
      alookup s'.index 0 = some ⟨"neque.txt".data, "old stuff".data⟩ ∧
      (∀ j, j ≠ 0 → alookup s'.index j = alookup oneDocState.index j) ∧
      s'.refTracker = oneDocState.refTracker ∧
      s'.nextDocID = oneDocState.nextDocID ∧
      (∀ q : String, lowerWord q.data ∈ tokens ("old stuff".data : List Char) →
        docMatch q ⟨"neque.txt".data, "old stuff".data⟩ = true) ∧
      (∀ q : String, lowerWord q.data ∈ tokens ("a".data : List Char) →
        lowerWord q.data ∉ tokens "neque.txt".data →
        lowerWord q.data ∉ tokens ("old stuff".data : List Char) →
        docMatch q ⟨"a".data, "old stuff".data⟩ = true ∧
        docMatch q ⟨"neque.txt".data, "old stuff".data⟩ = false) ∧
      (∀ q : String, lowerWord q.data ∈ tokens "neque.txt".data →
        docMatch q ⟨"neque.txt".data, "old stuff".data⟩ = true) :=
  renameChild_spec oneDocState 5 0 ⟨"a".data, "old stuff".data⟩ "neque.txt" rfl rfl

/-- C8: updateChild on a previous BlockPointer with no reverse mapping fails
with NotFoundError — it is never silently treated as a first-time index. -/
theorem updateChild_notFound_spec (s : IndexerState) (name : String)
    (oldPtr newPtr : Nat) (newContent : String)
    (h : alookup s.refTracker oldPtr = none) :
    updateChild s name oldPtr newPtr newContent = .error .notFound := by
  simp only [updateChild, h]

/-- Witness for C8: updating through an unmapped pointer fails. -/
theorem updateChild_notFound_spec_witness :
    updateChild emptyState "a" 0 1 "text" = .error .notFound :=
  updateChild_notFound_spec emptyState "a" 0 1 "text" rfl

/-- C2: for a document whose content is recognized markup, only the
human-visible text is indexed — a word absent from the visible text (and
from the name) never matches the document, a word of the visible text
matches it, and content not recognized as markup is extracted as raw
text. -/
theorem markup_extraction_spec (s : IndexerState) (name : String) (ptr cand : Nat)
    (content : String)
    (hnone : alookup s.refTracker ptr = none)
    (hhtml : contentTypeOf name.data = .html) :
    alookup (indexChild s name ptr cand content).2.index cand =
      some ⟨name.data, stripTags content.data⟩ ∧
    (∀ q : String, lowerWord q.data ∉ tokens name.data →
      lowerWord q.data ∉ tokens (stripTags content.data) →
      docMatch q ⟨name.data, stripTags content.data⟩ = false) ∧
    (∀ q : String, lowerWord q.data ∈ tokens (stripTags content.data) →
      docMatch q ⟨name.data, stripTags content.data⟩ = true) ∧
    (∀ nm c : List Char, contentTypeOf nm = .plain → extract nm c = c) := by
  have hex : extract name.data content.data = stripTags content.data := by
    unfold extract; rw [hhtml]
  refine ⟨?_, ?_, ?_, ?_⟩
  · have e : indexChild s name ptr cand content = (true, { s with
        index := aupsert s.index cand ⟨name.data, extract name.data content.data⟩,
        refTracker := (ptr, cand) :: s.refTracker }) := by
      unfold indexChild; rw [hnone]
    rw [e, hex]
    exact alookup_aupsert_self _ _ _
  · intro q hn hc
    show memW (lowerWord q.data)
      (docTokens ⟨name.data, stripTags content.data⟩) = false
    rw [← Bool.not_eq_true, memW_iff]
    intro hmem
    rcases List.mem_append.mp hmem with h1 | h2
    · exact hn h1
    · exact hc h2
  · intro q hc
    show memW (lowerWord q.data)
      (docTokens ⟨name.data, stripTags content.data⟩) = true
    rw [memW_iff]
    exact List.mem_append.mpr (Or.inr hc)
  · intro nm c h
    unfold extract; rw [h]

/-- Witness for C2: indexing `b.html` keeps only the visible text — `neque`
(an attribute value) matches nothing of the document, `condimentum` (visible
text) matches it, and a plain name is extracted as raw text. -/
theorem markup_extraction_spec_witness :
    alookup (indexChild emptyState "b.html" 2 1 bHTML).2.index 1 =
      some ⟨"b.html".data, stripTags bHTML.data⟩ ∧
    docMatch "neque" ⟨"b.html".data, stripTags bHTML.data⟩ = false ∧
    docMatch "condimentum" ⟨"b.html".data, stripTags bHTML.data⟩ = true ∧
    extract "a".data "raw words".data = "raw words".data :=
  have h := markup_extraction_spec emptyState "b.html" 2 1 bHTML rfl rfl
  ⟨h.1, h.2.1 "neque" (by decide) (by decide), h.2.2.1 "condimentum" (by decide),
   h.2.2.2 "a".data "raw words".data rfl⟩

/-- C9: indexed content is matched case-insensitively — when a word occurs
in the extracted content of an indexed document, a query equal to that word
up to case (in particular its all-lowercase form) returns the document. -/
theorem case_insensitive_spec (s : IndexerState) (name : String) (ptr cand : Nat)
    (content : String) (w : List Char) (q : String)
    (hnone : alookup s.refTracker ptr = none)
    (hw : w ∈ rawTokens (extract name.data content.data))
    (hq : lowerWord q.data = lowerWord w) :
    alookup (indexChild s name ptr cand content).2.index cand =
      some ⟨name.data, extract name.data content.data⟩ ∧
    docMatch q ⟨name.data, extract name.data content.data⟩ = true := by
  constructor
  · have e : indexChild s name ptr cand content = (true, { s with
        index := aupsert s.index cand ⟨name.data, extract name.data content.data⟩,
        refTracker := (ptr, cand) :: s.refTracker }) := by
      unfold indexChild; rw [hnone]
    rw [e]
    exact alookup_aupsert_self _ _ _
  · show memW (lowerWord q.data)
      (docTokens ⟨name.data, extract name.data content.data⟩) = true
    rw [memW_iff, hq]
    refine List.mem_append.mpr (Or.inr ?_)
    show lowerWord w ∈ (rawTokens (extract name.data content.data)).map lowerWord
    exact List.mem_map_of_mem lowerWord hw

/-- Witness for C9: the capitalized word `Lorem` of file `a` is found by the
all-lowercase query `lorem`. -/
theorem case_insensitive_spec_witness :
    alookup (indexChild emptyState "a" 1 0 aText).2.index 0 =
      some ⟨"a".data, extract "a".data aText.data⟩ ∧
    docMatch "lorem" ⟨"a".data, extract "a".data aText.data⟩ = true :=
  case_insensitive_spec emptyState "a" 1 0 aText "Lorem".data "lorem"
    rfl (by decide) (by decide)

/-- C4: deleteFromUnrefs deletes the document of every pointer that has a
reverse mapping (no word matches it afterwards) and erases the mapping;
pointers with no mapping leave the state untouched; and repeating the call
with the same pointer set is a no-op. -/
theorem deleteFromUnrefs_spec (s : IndexerState) (ptrs : List Nat) :
    (∀ p ∈ ptrs, ∀ id, alookup s.refTracker p = some id →
      alookup (deleteFromUnrefs s ptrs).index id = none ∧
      alookup (deleteFromUnrefs s ptrs).refTracker p = none ∧
      ∀ q : String, id ∉ searchHits (deleteFromUnrefs s ptrs) q) ∧
    ((∀ p ∈ ptrs, alookup s.refTracker p = none) → deleteFromUnrefs s ptrs = s) ∧
    deleteFromUnrefs (deleteFromUnrefs s ptrs) ptrs = deleteFromUnrefs s ptrs := by
  refine ⟨?_, del_noop ptrs s,
    del_noop ptrs _ (fun p hp => del_mem_ref_none ptrs s p hp)⟩
  intro p hp id hm
  have hidx := del_deletes ptrs s p id hp hm
  exact ⟨hidx, del_mem_ref_none ptrs s p hp,
    fun q => not_mem_hits_of_alookup_none _ id q hidx⟩

/-- Witness for C4: deleting pointers 1 (mapped to DocumentID 0) and 2
(unmapped) removes document 0 and its mapping; an all-unmapped set is a
no-op; and the repeated call changes nothing. -/
theorem deleteFromUnrefs_spec_witness :
    (alookup (deleteFromUnrefs twoDocState [1, 2]).index 0 = none ∧
      alookup (deleteFromUnrefs twoDocState [1, 2]).refTracker 1 = none ∧
      ∀ q : String, 0 ∉ searchHits (deleteFromUnrefs twoDocState [1, 2]) q) ∧
    deleteFromUnrefs twoDocState [2] = twoDocState ∧
    deleteFromUnrefs (deleteFromUnrefs twoDocState [1, 2]) [1, 2] =
      deleteFromUnrefs twoDocState [1, 2] :=
  ⟨(deleteFromUnrefs_spec twoDocState [1, 2]).1 1 (by decide) 0 rfl,
   (deleteFromUnrefs_spec twoDocState [2]).2.1 (by decide),
   (deleteFromUnrefs_spec twoDocState [1, 2]).2.2⟩

/-- C6: the Document ID Allocator issues each reservation as the batch of
the next `n` DocumentIDs; any reservation made from a state whose persisted
counter is at least the one durably advanced by a previous reservation (a
later caller, or a crash-then-reopen, which resumes from the persisted
counter) yields IDs strictly above every ID of the previous batch — so
ranges never overlap and IDs grow monotonically; and no indexer operation
(including deletion) ever lowers the persisted counter, so a DocumentID is
never reused. -/
theorem allocator_spec (s : IndexerState) (n m : Nat) (s' : IndexerState)
    (h : (getNextDocIDs n s).2.nextDocID ≤ s'.nextDocID) :
    (∀ a ∈ (getNextDocIDs n s).1,
      s.nextDocID ≤ a ∧ a < (getNextDocIDs n s).2.nextDocID) ∧
    (∀ a ∈ (getNextDocIDs n s).1, ∀ b ∈ (getNextDocIDs m s').1, a < b) ∧
    (∀ ptrs, (deleteFromUnrefs s ptrs).nextDocID = s.nextDocID) ∧
    (∀ (name : String) (ptr cand : Nat) (content : String),
      ((indexChild s name ptr cand content).2).nextDocID = s.nextDocID) ∧
    (∀ (name : String) (oldPtr newPtr : Nat) (c : String) (s₂ : IndexerState),
      updateChild s name oldPtr newPtr c = .ok s₂ → s₂.nextDocID = s.nextDocID) ∧
    (∀ (ptr : Nat) (nm : String) (s₂ : IndexerState),
      renameChild s ptr nm = .ok s₂ → s₂.nextDocID = s.nextDocID) := by
  simp only [getNextDocIDs] at h ⊢
  refine ⟨?_, ?_, ?_, ?_, ?_, ?_⟩
  · intro a ha
    simp only [List.mem_map, List.mem_range] at ha
    obtain ⟨i, hi, rfl⟩ := ha
    omega
  · intro a ha b hb
    simp only [List.mem_map, List.mem_range] at ha hb
    obtain ⟨i, hi, rfl⟩ := ha
    obtain ⟨j, hj, rfl⟩ := hb
    omega
  · intro ptrs
    exact deleteFromUnrefs_nextDocID ptrs s
  · intro name ptr cand content
    unfold indexChild
    cases alookup s.refTracker ptr <;> rfl
  · intro name oldPtr newPtr c s₂ h₂
    unfold updateChild at h₂
    cases hold : alookup s.refTracker oldPtr with
    | none => rw [hold] at h₂; cases h₂
    | some id =>
      rw [hold] at h₂
      cases h₂
      rfl
  · intro ptr nm s₂ h₂
    cases hptr : alookup s.refTracker ptr with
    | none =>
      simp only [renameChild, hptr] at h₂
      cases h₂
    | some id =>
      cases hidx : alookup s.index id with
      | none =>
        simp only [renameChild, hptr, hidx] at h₂
        cases h₂
      | some d =>
        simp only [renameChild, hptr, hidx] at h₂
        cases h₂
        rfl

/-- Witness for C6: the batch of two IDs reserved from a fresh instance is
`[0, 1]`, every later reservation (here after reopening from the persisted
counter) stays strictly above it, and deletion does not move the counter. -/
theorem allocator_spec_witness :
    (emptyState.nextDocID ≤ 1 ∧ 1 < (getNextDocIDs 2 emptyState).2.nextDocID) ∧
    (1 : Nat) < 2 ∧
    (deleteFromUnrefs emptyState [5]).nextDocID = emptyState.nextDocID :=
  have h := allocator_spec emptyState 2 3 (getNextDocIDs 2 emptyState).2 (by decide)
  ⟨h.1 1 (by decide), h.2.1 1 (by decide) 2 (by decide), h.2.2.1 [5]⟩

/-- C7 counterexample: in the concrete scenario of the test, after the
update of file `a` the search for `dolor` yields exactly one hit, but that
hit is DocumentID 0 — the updated document `a` itself, whose new content
still contains `dolor` and which is mapped from the new BlockPointer 3 —
and not DocumentID 1, the other document `b.html`; the claim that the hit
is the other document only is therefore false. -/
theorem scenario_dolor_counterexample :
    searchCount scen5 "dolor" = 1 ∧
    searchHits scen5 "dolor" = [0] ∧
    alookup scen5.refTracker 3 = some 0 ∧
    alookup scen5.index 0 = some ⟨"a".data, aNewText.data⟩ ∧
    alookup scen5.refTracker 2 = some 1 ∧
    (1 : Nat) ∉ searchHits scen5 "dolor" :=
  ⟨rfl, rfl, rfl, rfl, rfl, by decide⟩

/-- C7 amended: in the concrete scenario, after updating `a` with its new
content — which adds `tortor` but still contains `dolor` — the search for
`dolor` yields exactly 1 hit, namely the updated document `a` (DocumentID
0), and the search for `tortor` yields exactly 1 hit, the same document. -/
theorem scenario_dolor_amended :
    searchCount scen5 "dolor" = 1 ∧
    searchHits scen5 "dolor" = [0] ∧
    alookup scen5.refTracker 3 = some 0 ∧
    searchCount scen5 "tortor" = 1 ∧
    searchHits scen5 "tortor" = [0] :=
  ⟨rfl, rfl, rfl, rfl, rfl⟩

/-- C10: the full-sync backfill traversal indexes directory entries as
documents too — on the test tree, the directories `alpha` and `beta` get
their own documents (DocumentIDs 1 and 4), searching `alpha` returns the
directory's document plus its two children (3 hits), the name component
`file1` shared across directories returns one document per file (2 hits),
and the seven tree entries yield seven documents. -/
theorem fullIndex_spec :
    alookup fullState.index 1 = some ⟨"alpha".data, "".data⟩ ∧
    alookup fullState.index 4 = some ⟨"beta".data, "".data⟩ ∧
    searchHits fullState "alpha" = [1, 2, 3] ∧
    searchCount fullState "alpha" = 3 ∧
    searchCount fullState "file1" = 2 ∧
    searchCount fullState "dolor" = 2 ∧
    searchCount fullState "feugiat" = 1 ∧
    fullState.index.length = 7 :=
  ⟨rfl, rfl, rfl, rfl, rfl, rfl, rfl, rfl⟩

end KbfsSearch
